import Mathlib

/-!
Verification of the Donizo pricing engine (`pricing_engine.py`).

The transcript text is embedded as a `List Char`; Python floats are embedded
as exact rationals (`ℚ`), with `round(x, 2)` embedded as rounding to the
nearest multiple of `1/100` (ties modelled half-up; no claim below depends on
the tie-breaking convention).  A Python `dict` field that may be absent, or
present with value `None`, is embedded as `Option (Option ℚ)`.  Code paths
that would raise a Python exception are embedded in `Except PyErr`.

The collaborator modules `pricing_logic.material_db`, `pricing_logic.labor_calc`
and `pricing_logic.vat_rules` are not part of the sources; they are modelled
from the specification and the repository's unit tests (see the doc comments
marked "Modelled from the spec").
-/

namespace Donizo

/-- Python-style exceptions that the embedded code can raise. -/
inductive PyErr where
  | typeError : PyErr
  | zeroDivisionError : PyErr
deriving DecidableEq, Repr, Inhabited

/-- `text.lower()`: lowercase every character. -/
def lower (t : List Char) : List Char := t.map Char.toLower

/-- Numeric value of a digit string (`float(group(1))`, always a natural here). -/
def digitsVal (ds : List Char) : Nat :=
  ds.foldl (fun a c => a * 10 + (c.toNat - 48)) 0

/-- One attempt of the regex `(\d+)\s?m[²2]` anchored at the head of `cs`:
maximal digit run (nonempty), an optional single whitespace, `m`, then `2` or `²`.
Maximal-munch is equivalent to the regex's backtracking here because a digit can
never satisfy `\s?m`. -/
def matchAreaAt (cs : List Char) : Option Nat :=
  let ds := cs.takeWhile Char.isDigit
  if ds.isEmpty then none
  else
    let rest := cs.drop ds.length
    let rest2 := match rest with
      | c :: r => if c.isWhitespace then r else c :: r
      | [] => []
    match rest2 with
    | 'm' :: c :: _ => if c = '2' ∨ c = '²' then some (digitsVal ds) else none
    | _ => none

/-- `re.search(r"(\d+)\s?m[²2]", s)`: leftmost position at which the pattern
matches, returning the numeric value of the first capture group. -/
def findArea : List Char → Option Nat
  | [] => none
  | c :: cs =>
    match matchAreaAt (c :: cs) with
    | some n => some n
    | none => findArea cs

/-- One attempt of the regex `(marseille|paris|lyon)` anchored at the head,
alternatives tried in order; the result is already `.capitalize()`d. -/
def cityAt (cs : List Char) : Option String :=
  if "marseille".toList <+: cs then some "Marseille"
  else if "paris".toList <+: cs then some "Paris"
  else if "lyon".toList <+: cs then some "Lyon"
  else none

/-- `re.search(r"(marseille|paris|lyon)", s)`: leftmost match, capitalized. -/
def findCity : List Char → Option String
  | [] => none
  | c :: cs =>
    match cityAt (c :: cs) with
    | some s => some s
    | none => findCity cs

/-- `float(area_match.group(1))` lifted over the optional regex result. -/
def areaOf (lt : List Char) : Option ℚ :=
  match findArea lt with
  | some n => some ((n : ℚ))
  | none => none

/-- A task dict produced by `parse_transcript`.  `area_m2 = none` means the
dict has no `"area_m2"` key; `some none` means the key is present with value
`None`; `some (some a)` means the key holds the float `a`. -/
structure TaskIntent where
  task_name : String
  area_m2 : Option (Option ℚ)
deriving DecidableEq, Repr, Inhabited

/-- The dict returned by `parse_transcript`. -/
structure ParsedIntent where
  zone : String
  city : Option String
  budget_flag : Bool
  tasks : List TaskIntent
  area_m2 : Option ℚ
deriving DecidableEq, Repr, Inhabited

/-- `parse_transcript` (src/pricing_engine.py lines 20-59): rule-based parser.
Total: it never raises. -/
def parseTranscript (text : List Char) : ParsedIntent :=
  let lt := lower text
  let zone := if "bathroom".toList <:+: lt then "bathroom" else "general"
  let area : Option ℚ := areaOf lt
  let city := findCity lt
  let budget := decide ("budget".toList <:+: lt)
  let ts0 : List TaskIntent := []
  let ts1 := if "tile".toList <:+: lt then
    ts0 ++ [⟨"Floor Tiling (ceramic)", some area⟩] else ts0
  let ts2 := if "paint".toList <:+: lt ∨ "repaint".toList <:+: lt then
    ts1 ++ [⟨"Repaint Walls", none⟩] else ts1
  let ts3 := if "plumb".toList <:+: lt then
    ts2 ++ [⟨"Shower Plumbing (redo)", none⟩] else ts2
  let ts4 := if "toilet".toList <:+: lt then
    ts3 ++ [⟨"Replace Toilet", none⟩] else ts3
  let ts5 := if "vanity".toList <:+: lt then
    ts4 ++ [⟨"Install Vanity", none⟩] else ts4
  let ts6 := if "remove old tile".toList <:+: lt ∨ "remove the old tiles".toList <:+: lt then
    ts5 ++ [⟨"Demolition & Disposal", none⟩] else ts5
  ⟨zone, city, budget, ts6, area⟩

/-- Modelled from the spec: the city multiplier table of the external rate/cost
providers (`pricing_logic`, not among the sources).  The tests pin
Marseille = 1.0 and Paris = 1.25; unknown cities fall back to the default 1.0.
Lyon's exact multiplier is unspecified; any fixed positive value works for the
claims, we use 1.1. -/
def cityMult (city : String) : ℚ :=
  if city = "Paris" then 5 / 4
  else if city = "Lyon" then 11 / 10
  else 1

/-- Modelled from the spec: `pricing_logic.labor_calc.hourly_rate`, a city-keyed
lookup with base rate 40.0 (pinned by the tests) scaled by the city multiplier,
with a default fallback for unknown cities. -/
def hourly_rate (city : String) : ℚ := 40 * cityMult city

/-- Modelled from the spec: `pricing_logic.labor_calc.compute_labor_cost`,
`hours * hourly_rate(city)` (pinned by the tests). -/
def compute_labor_cost (hours : ℚ) (city : String) : ℚ := hours * hourly_rate city

/-- Modelled from the spec: the base unit cost per SKU of
`pricing_logic.material_db`.  The tests pin `tiles_ceramic_m2` at 25.0; the
other SKUs are unspecified fixed positive constants, with a default for
unknown SKUs. -/
def materialBase (sku : String) : ℚ :=
  if sku = "tiles_ceramic_m2" then 25
  else if sku = "paint_litre" then 10
  else if sku = "plumbing_parts" then 150
  else if sku = "toilet_standard" then 150
  else if sku = "vanity_basic" then 200
  else if sku = "disposal_fee" then 100
  else 20

/-- Modelled from the spec: `pricing_logic.material_db.get_material_cost`,
unit-linear in quantity and scaled by the city multiplier
(`materialCost(sku, qty, city) == materialCost(sku, 1, city) * qty`). -/
def get_material_cost (sku : String) (qty : ℚ) (city : String) : ℚ :=
  materialBase sku * qty * cityMult city

/-- Round up to the nearest quarter-hour (the tests pin `0.9 * 4 = 3.6 → 3.75`). -/
def roundQuarterUp (q : ℚ) : ℚ := (Int.ceil (4 * q) : ℚ) / 4

/-- Modelled from the spec: `pricing_logic.labor_calc.estimate_hours`, a
task-name-keyed base duration, scaled by area for tiling (0.9 h per m²,
pinned by the tests), rounded up to the nearest quarter-hour, with default
fallbacks for missing area and unknown task names (it must never raise).
The non-tiling base durations are unspecified fixed positive constants. -/
def estimate_hours (name : String) (area : Option ℚ) : ℚ :=
  if name = "Floor Tiling (ceramic)" then
    match area with
    | some a => if a ≠ 0 then roundQuarterUp (9 / 10 * a) else 3
    | none => 3
  else if name = "Repaint Walls" then 4
  else if name = "Shower Plumbing (redo)" then 6
  else if name = "Replace Toilet" then 2
  else if name = "Install Vanity" then 2
  else if name = "Demolition & Disposal" then 3
  else 2

/-- Modelled from the spec: `pricing_logic.vat_rules.get_vat_rate`, a
task/city-keyed lookup; the tests pin both the default rate and the
`Floor Tiling` rate at 0.20, so the model returns 0.20 throughout. -/
def get_vat_rate (_tname _city : String) : ℚ := 1 / 5

/-- `apply_margin_protection` (lines 62-65): margin percentage is the floor
`max default_margin min_margin`; returns `(margin_pct, margin_amount)`. -/
def apply_margin_protection (base_price default_margin min_margin : ℚ) : ℚ × ℚ :=
  let margin_pct := max default_margin min_margin
  (margin_pct, base_price * margin_pct)

/-- Python truthiness of an optional float (`None` and `0.0` are falsy). -/
def truthyOpt : Option ℚ → Bool
  | none => false
  | some a => decide (a ≠ 0)

/-- `compute_confidence` (lines 68-78).  `city` is the already-defaulted city
string from `build_quote`, so the 0.1 branch is reachable only for an empty
city string. -/
def compute_confidence (task : TaskIntent) (city : String) : ℚ :=
  let s1 : ℚ := if task.task_name ≠ "" then 2 / 5 else 0
  let s2 : ℚ := if truthyOpt (task.area_m2.bind id) = true ∨ task.area_m2 = none
    then 1 / 5 else 0
  let s3 : ℚ := if city ≠ "" then 1 / 5 else 1 / 10
  min (s1 + s2 + s3 + 1 / 5) 1

/-- `round(x, 2)`: nearest multiple of 1/100 (ties half-up). -/
def round2 (q : ℚ) : ℚ := (round (q * 100) : ℤ) / 100

/-- A material line item of the output JSON. -/
structure MaterialLine where
  name : String
  qty : ℚ
  unit_cost : ℚ
  total : ℚ
deriving DecidableEq, Repr, Inhabited

/-- The `labor` sub-object of an output task record. -/
structure Labor where
  hours : ℚ
  hourly_rate : ℚ
  cost : ℚ
deriving DecidableEq, Repr, Inhabited

/-- One task record of the output JSON (lines 151-165).  `area_m2` is the
flattened `task.get("area_m2")`. -/
structure PricedTask where
  task_name : String
  area_m2 : Option ℚ
  labor : Labor
  materials : List MaterialLine
  estimated_duration_hours : ℚ
  vat_rate : ℚ
  margin_pct : ℚ
  price_ex_vat : ℚ
  vat_amount : ℚ
  total_price : ℚ
  confidence : ℚ
deriving DecidableEq, Repr, Inhabited

/-- The `summary` object of the output JSON (lines 184-192). -/
structure Summary where
  total_labor_cost : ℚ
  total_material_cost : ℚ
  total_vat : ℚ
  total_price : ℚ
  estimated_duration_hours : ℚ
  confidence_score : ℚ
  suspicious_input : Bool
deriving DecidableEq, Repr, Inhabited

/-- The `client` object of the output JSON. -/
structure Client where
  raw_transcript : List Char
  location : String
deriving DecidableEq, Repr, Inhabited

/-- One zone of the output JSON. -/
structure Zone where
  zone_name : String
  tasks : List PricedTask
deriving DecidableEq, Repr, Inhabited

/-- The full output quote JSON. -/
structure Quote where
  system : String
  quote_id : String
  client : Client
  currency : String
  zones : List Zone
  summary : Summary
deriving DecidableEq, Repr, Inhabited

/-- `generate_quote_id` (lines 16-17); the random `uuid4().hex` is an external
input, passed in as `uuidHex`. -/
def generate_quote_id (uuidHex : String) : String := "donizo-" ++ uuidHex.take 8

/-- `parsed["city"] or "Generic"` (line 87): Python truthiness on the optional
city string. -/
def effectiveCity (pc : Option String) : String :=
  match pc with
  | some c => if c ≠ "" then c else "Generic"
  | none => "Generic"

/-- The materials dispatch of `build_quote` (lines 109-138).  The branch
conditions are Python's case-sensitive `"Tile" in tname` etc.  In the tiling
branch `task.get("area_m2", 4)` yields the dict value (possibly `None`) when
the key is present and `4` only when it is absent; a `None` quantity raises
`TypeError` in the material-cost arithmetic, and a zero quantity raises
`ZeroDivisionError` at `cost / qty`.  Returns the material lines and the
accumulated `mat_cost`. -/
def materialsFor (tname : String) (areaKey : Option (Option ℚ)) (city : String) :
    Except PyErr (List MaterialLine × ℚ) :=
  if "Tile".toList <:+: tname.toList then
    match areaKey.getD (some 4) with
    | none => .error .typeError
    | some q =>
      if q = 0 then .error .zeroDivisionError
      else
        let cost := get_material_cost "tiles_ceramic_m2" q city
        .ok ([⟨"tiles_ceramic_m2", q, cost / q, cost⟩], cost)
  else if "Paint".toList <:+: tname.toList then
    let cost := get_material_cost "paint_litre" 5 city
    .ok ([⟨"paint_litre", 5, cost / 5, cost⟩], cost)
  else if "Plumbing".toList <:+: tname.toList then
    let cost := get_material_cost "plumbing_parts" 1 city
    .ok ([⟨"plumbing_parts", 1, cost, cost⟩], cost)
  else if "Toilet".toList <:+: tname.toList then
    let cost := get_material_cost "toilet_standard" 1 city
    .ok ([⟨"toilet_standard", 1, cost, cost⟩], cost)
  else if "Vanity".toList <:+: tname.toList then
    let cost := get_material_cost "vanity_basic" 1 city
    .ok ([⟨"vanity_basic", 1, cost, cost⟩], cost)
  else if "Demolition".toList <:+: tname.toList then
    let cost := get_material_cost "disposal_fee" 1 city
    .ok ([⟨"disposal_fee", 1, cost, cost⟩], cost)
  else .ok ([], 0)

/-- The full-precision per-task values accumulated by the loop of
`build_quote`, next to the rounded output record. -/
structure TaskCalc where
  record : PricedTask
  labor_cost : ℚ
  mat_cost : ℚ
  vat_amount : ℚ
  total_price : ℚ
  hours : ℚ
  confidence : ℚ
deriving DecidableEq, Repr, Inhabited

/-- One iteration of the task loop of `build_quote` (lines 101-174), given the
already-computed materials result. -/
def mkTaskCalc (task : TaskIntent) (city : String) (hourly : ℚ)
    (materials : List MaterialLine) (mat_cost : ℚ) : TaskCalc :=
  let tname := task.task_name
  let hours := estimate_hours tname (task.area_m2.bind id)
  let labor_cost := compute_labor_cost hours city
  let base_price := labor_cost + mat_cost
  let mm := apply_margin_protection base_price (12 / 100) (5 / 100)
  let margin_pct := mm.1
  let price_ex_vat := base_price + mm.2
  let vat_rate := get_vat_rate tname city
  let vat_amount := price_ex_vat * vat_rate
  let total_task_price := price_ex_vat + vat_amount
  let confidence := compute_confidence task city
  { record :=
      { task_name := tname
        area_m2 := task.area_m2.bind id
        labor := ⟨hours, hourly, labor_cost⟩
        materials := materials
        estimated_duration_hours := hours
        vat_rate := vat_rate
        margin_pct := margin_pct
        price_ex_vat := round2 price_ex_vat
        vat_amount := round2 vat_amount
        total_price := round2 total_task_price
        confidence := round2 confidence }
    labor_cost := labor_cost
    mat_cost := mat_cost
    vat_amount := vat_amount
    total_price := total_task_price
    hours := hours
    confidence := confidence }

/-- Price one parsed task (the loop body of `build_quote`): the only failing
step is the materials dispatch. -/
def priceTask (task : TaskIntent) (city : String) (hourly : ℚ) :
    Except PyErr TaskCalc :=
  (materialsFor task.task_name task.area_m2 city).map
    (fun p => mkTaskCalc task city hourly p.1 p.2)

/-- Run a fallible step over a list in order, stopping at the first raised
exception (the Python `for` loop over tasks). -/
def mapE (f : α → Except PyErr β) : List α → Except PyErr (List β)
  | [] => .ok []
  | x :: xs =>
    match f x with
    | .error e => .error e
    | .ok y => (mapE f xs).map (fun ys => y :: ys)

/-- The task loop of `build_quote`: price every parsed task in order, stopping
at the first raised exception. -/
def taskCalcs (text : List Char) : Except PyErr (List TaskCalc) :=
  let parsed := parseTranscript text
  let city := effectiveCity parsed.city
  let hourly := hourly_rate city
  mapE (fun task => priceTask task city hourly) parsed.tasks

/-- Assembly of the output JSON of `build_quote` (lines 178-193) from the
per-task calculations. -/
def assembleQuote (uuidHex : String) (text : List Char) (calcs : List TaskCalc) :
    Quote :=
  let parsed := parseTranscript text
  let city := effectiveCity parsed.city
  let total_labor_cost := (calcs.map TaskCalc.labor_cost).sum
  let total_material_cost := (calcs.map TaskCalc.mat_cost).sum
  let total_vat := (calcs.map TaskCalc.vat_amount).sum
  let total_price := (calcs.map TaskCalc.total_price).sum
  let total_hours := (calcs.map TaskCalc.hours).sum
  let weighted_conf_sum := (calcs.map (fun c => c.confidence * c.total_price)).sum
  let weighted_cost_sum := (calcs.map TaskCalc.total_price).sum
  let global_conf := if weighted_cost_sum ≠ 0
    then weighted_conf_sum / weighted_cost_sum else 0
  { system := "T"
    quote_id := generate_quote_id uuidHex
    client := ⟨text, city⟩
    currency := "EUR"
    zones := [⟨parsed.zone, calcs.map TaskCalc.record⟩]
    summary :=
      { total_labor_cost := round2 total_labor_cost
        total_material_cost := round2 total_material_cost
        total_vat := round2 total_vat
        total_price := round2 total_price
        estimated_duration_hours := round2 total_hours
        confidence_score := round2 global_conf
        suspicious_input := decide (global_conf < 3 / 5) } }

/-- `build_quote` (lines 84-194): parse, price each task, assemble the quote.
`uuidHex` stands for the `uuid4().hex` drawn inside `generate_quote_id`. -/
def buildQuote (uuidHex : String) (text : List Char) : Except PyErr Quote :=
  match taskCalcs text with
  | .error e => .error e
  | .ok calcs => .ok (assembleQuote uuidHex text calcs)

/-- The fixed ordered trigger table as the spec words it (§4.1): each entry
lists its trigger phrases, the produced task name, and whether the produced
task carries the parsed area. -/
def triggerTable : List (List String × String × Bool) :=
  [(["tile"], "Floor Tiling (ceramic)", true),
   (["paint", "repaint"], "Repaint Walls", false),
   (["plumb"], "Shower Plumbing (redo)", false),
   (["toilet"], "Replace Toilet", false),
   (["vanity"], "Install Vanity", false),
   (["remove old tile", "remove the old tiles"], "Demolition & Disposal", false)]

/-- The task list as the spec words it: for each trigger entry of the fixed
ordered table, append one task when any of its phrases occurs as a substring
of the lowercased text. -/
def specTriggerTasks (text : List Char) : List TaskIntent :=
  let lt := lower text
  triggerTable.foldr
    (fun e acc =>
      (if e.1.any (fun p => decide (p.toList <:+: lt)) then
        [⟨e.2.1, if e.2.2 then some (areaOf lt) else none⟩] else []) ++ acc)
    []

/-- The eight trigger phrases of the parser. -/
def triggerPhrases : List String :=
  ["tile", "paint", "repaint", "plumb", "toilet", "vanity",
   "remove old tile", "remove the old tiles"]

/-- The total-price-weighted average of per-task confidences as the spec words
it (§4.5): `sum(confidence_i * total_price_i) / sum(total_price_i)`, defined
as 0.0 when the denominator is zero. -/
def weightedAvg (pairs : List (ℚ × ℚ)) : ℚ :=
  if (pairs.map Prod.snd).sum = 0 then 0
  else (pairs.map (fun p => p.1 * p.2)).sum / (pairs.map Prod.snd).sum

/-- A quote with its `quote_id` blanked, for comparing quotes up to the
freshly generated identifier. -/
def eraseId (q : Quote) : Quote := { q with quote_id := "" }

/-- Concrete pipeline runs used by the witnesses. -/
def sampleQ2 : Quote := ((buildQuote "aaaa1111" "toilet".toList).toOption).getD default

def sampleZ2 : Zone := sampleQ2.zones.getD 0 default

def samplePT2 : PricedTask := sampleZ2.tasks.getD 0 default

def sampleQ3 : Quote := ((buildQuote "bbbb2222" "vanity".toList).toOption).getD default

def sampleCS5 : List TaskCalc := ((taskCalcs "plumb".toList).toOption).getD []

def sampleQ5 : Quote := ((buildQuote "cccc3333" "plumb".toList).toOption).getD default

def sampleCS6 : List TaskCalc :=
  ((taskCalcs "toilet and vanity".toList).toOption).getD []

def sampleQ6 : Quote :=
  ((buildQuote "dddd4444" "toilet and vanity".toList).toOption).getD default

def sampleQ7a : Quote := ((buildQuote "aaaaaaaa" "toilet".toList).toOption).getD default

def sampleQ7b : Quote := ((buildQuote "bbbbbbbb" "toilet".toList).toOption).getD default

def sampleQ8 : Quote := ((buildQuote "eeee5555" "hello there".toList).toOption).getD default

def sampleQ10 : Quote := ((buildQuote "ffff6666" "redo the plumbing".toList).toOption).getD default

def sampleQ1 : Quote := ((buildQuote "abab7777" "lay tile today".toList).toOption).getD default

def sampleZ1 : Zone := sampleQ1.zones.getD 0 default

def samplePT1 : PricedTask := sampleZ1.tasks.getD 0 default

/-! ### Helper lemmas -/

theorem round2_zero : round2 0 = 0 := by
  simp [round2]

theorem round2_mono {a b : ℚ} (h : a ≤ b) : round2 a ≤ round2 b := by
  unfold round2
  have : round (a * 100) ≤ round (b * 100) := by
    rw [round_eq, round_eq]
    exact Int.floor_mono (by linarith)
  have h2 : ((round (a * 100) : ℤ) : ℚ) ≤ ((round (b * 100) : ℤ) : ℚ) :=
    Int.cast_le.2 this
  linarith

theorem abs_round2_sub (q : ℚ) : |round2 q - q| ≤ 1 / 200 := by
  unfold round2
  have h := abs_sub_round (q * 100)
  rw [abs_sub_comm] at h
  rw [show (round (q * 100) : ℚ) / 100 - q = ((round (q * 100) : ℚ) - q * 100) / 100 by ring,
    abs_div]
  rw [show |(100 : ℚ)| = 100 by norm_num]
  linarith

theorem abs_round2_add (a b : ℚ) :
    |round2 (a + b) - (round2 a + round2 b)| ≤ 3 / 200 := by
  have h1 := abs_round2_sub (a + b)
  have h2 := abs_round2_sub a
  have h3 := abs_round2_sub b
  have : round2 (a + b) - (round2 a + round2 b) =
      (round2 (a + b) - (a + b)) - (round2 a - a) - (round2 b - b) := by ring
  rw [this]
  calc |(round2 (a + b) - (a + b)) - (round2 a - a) - (round2 b - b)|
      ≤ |(round2 (a + b) - (a + b)) - (round2 a - a)| + |round2 b - b| :=
        abs_sub _ _
    _ ≤ |round2 (a + b) - (a + b)| + |round2 a - a| + |round2 b - b| := by
        have := abs_sub (round2 (a + b) - (a + b)) (round2 a - a)
        linarith
    _ ≤ 3 / 200 := by linarith

/-- Total rounding error of rounding a list elementwise. -/
theorem abs_sum_round2_sub (l : List ℚ) :
    |(l.map round2).sum - l.sum| ≤ l.length / 200 := by
  induction l with
  | nil => simp
  | cons a t ih =>
    have h := abs_round2_sub a
    simp only [List.map_cons, List.sum_cons, List.length_cons]
    have : round2 a + (t.map round2).sum - (a + t.sum) =
        (round2 a - a) + ((t.map round2).sum - t.sum) := by ring
    rw [this]
    calc |(round2 a - a) + ((t.map round2).sum - t.sum)|
        ≤ |round2 a - a| + |(t.map round2).sum - t.sum| := abs_add _ _
      _ ≤ 1 / 200 + t.length / 200 := by linarith
      _ = (t.length + 1 : ℚ) / 200 := by ring
      _ = ((t.length + 1 : ℕ) : ℚ) / 200 := by push_cast; ring

theorem mapE_ok_mem {f : α → Except PyErr β} {l : List α} {ys : List β}
    (h : mapE f l = .ok ys) : ∀ y ∈ ys, ∃ x ∈ l, f x = .ok y := by
  induction l generalizing ys with
  | nil =>
    simp only [mapE] at h
    cases h
    intro y hy
    cases hy
  | cons x xs ih =>
    simp only [mapE] at h
    cases hfx : f x with
    | error e => rw [hfx] at h; cases h
    | ok y0 =>
      rw [hfx] at h
      cases hrest : mapE f xs with
      | error e => rw [hrest] at h; cases h
      | ok ys0 =>
        rw [hrest] at h
        simp only [Except.map] at h
        cases h
        intro y hy
        rcases List.mem_cons.1 hy with rfl | hy'
        · exact ⟨x, List.mem_cons_self _ _, hfx⟩
        · rcases ih hrest y hy' with ⟨x', hx', hfx'⟩
          exact ⟨x', List.mem_cons_of_mem _ hx', hfx'⟩

theorem mapE_ok_length {f : α → Except PyErr β} {l : List α} {ys : List β}
    (h : mapE f l = .ok ys) : ys.length = l.length := by
  induction l generalizing ys with
  | nil => simp only [mapE] at h; cases h; rfl
  | cons x xs ih =>
    simp only [mapE] at h
    cases hfx : f x with
    | error e => rw [hfx] at h; cases h
    | ok y0 =>
      rw [hfx] at h
      cases hrest : mapE f xs with
      | error e => rw [hrest] at h; cases h
      | ok ys0 =>
        rw [hrest] at h
        simp only [Except.map] at h
        cases h
        simp [ih hrest]

theorem mapE_ok_of_forall_ok {f : α → Except PyErr β} {l : List α}
    (h : ∀ x ∈ l, ∃ y, f x = .ok y) : ∃ ys, mapE f l = .ok ys := by
  induction l with
  | nil => exact ⟨[], rfl⟩
  | cons x xs ih =>
    rcases h x (List.mem_cons_self _ _) with ⟨y, hy⟩
    rcases ih (fun z hz => h z (List.mem_cons_of_mem _ hz)) with ⟨ys, hys⟩
    exact ⟨y :: ys, by simp [mapE, hy, hys, Except.map]⟩

theorem mem_if_append {t a : TaskIntent} {l : List TaskIntent} {c : Prop}
    [Decidable c] (h : t ∈ if c then l ++ [a] else l) : t ∈ l ∨ t = a := by
  split at h
  · rcases List.mem_append.1 h with h' | h'
    · exact Or.inl h'
    · exact Or.inr (List.mem_singleton.1 h')
  · exact Or.inl h

theorem length_if_append {a : TaskIntent} {l : List TaskIntent} {c : Prop}
    [Decidable c] : (if c then l ++ [a] else l).length ≤ l.length + 1 := by
  split <;> simp

/-- Every task produced by the parser is one of the six catalog tasks; the
tiling task carries the parsed area (a nonnegative integer when present) and
the other five carry no `area_m2` key. -/
theorem parse_tasks_cases {text : List Char} {t : TaskIntent}
    (h : t ∈ (parseTranscript text).tasks) :
    t = ⟨"Floor Tiling (ceramic)", some (areaOf (lower text))⟩ ∨
    t = ⟨"Repaint Walls", none⟩ ∨
    t = ⟨"Shower Plumbing (redo)", none⟩ ∨
    t = ⟨"Replace Toilet", none⟩ ∨
    t = ⟨"Install Vanity", none⟩ ∨
    t = ⟨"Demolition & Disposal", none⟩ := by
  simp only [parseTranscript] at h
  rcases mem_if_append h with h | h
  rotate_left
  · exact Or.inr (Or.inr (Or.inr (Or.inr (Or.inr h))))
  rcases mem_if_append h with h | h
  rotate_left
  · exact Or.inr (Or.inr (Or.inr (Or.inr (Or.inl h))))
  rcases mem_if_append h with h | h
  rotate_left
  · exact Or.inr (Or.inr (Or.inr (Or.inl h)))
  rcases mem_if_append h with h | h
  rotate_left
  · exact Or.inr (Or.inr (Or.inl h))
  rcases mem_if_append h with h | h
  rotate_left
  · exact Or.inr (Or.inl h)
  rcases mem_if_append h with h | h
  · cases h
  · exact Or.inl h

/-- Well-formedness of every parsed task: nonempty catalog name and a
nonnegative area when the area key holds a number. -/
theorem parse_tasks_wf {text : List Char} {t : TaskIntent}
    (h : t ∈ (parseTranscript text).tasks) :
    t.task_name ≠ "" ∧ (∀ a : ℚ, t.area_m2 = some (some a) → 0 ≤ a) := by
  rcases parse_tasks_cases h with rfl | rfl | rfl | rfl | rfl | rfl
  · refine ⟨by change "Floor Tiling (ceramic)" ≠ ""; decide, ?_⟩
    intro a ha
    change some (areaOf (lower text)) = some (some a) at ha
    cases hf : findArea (lower text) with
    | none => simp [areaOf, hf] at ha
    | some n =>
      simp only [areaOf, hf, Option.some.injEq] at ha
      rw [← ha]
      positivity
  all_goals exact ⟨by change _ ≠ ""; decide, fun a ha => by cases ha⟩

/-- The parser produces at most six tasks. -/
theorem parse_tasks_length (text : List Char) :
    (parseTranscript text).tasks.length ≤ 6 := by
  simp only [parseTranscript]
  split_ifs <;> simp

/-- The material lines returned by the dispatch sum exactly to the returned
accumulated material cost. -/
theorem materialsFor_sum {tname : String} {ak : Option (Option ℚ)} {city : String}
    {ms : List MaterialLine} {mc : ℚ}
    (h : materialsFor tname ak city = .ok (ms, mc)) :
    (ms.map MaterialLine.total).sum = mc := by
  unfold materialsFor at h
  split_ifs at h
  · rcases hk : ak.getD (some 4) with _ | q
    · rw [hk] at h; cases h
    · rw [hk] at h
      dsimp only at h
      split_ifs at h
      all_goals (cases h; try simp)
  all_goals (cases h; simp)

/-- The accumulated material cost is nonnegative whenever the task's area key,
if it holds a number, holds a nonnegative one. -/
theorem materialsFor_nonneg {tname : String} {ak : Option (Option ℚ)} {city : String}
    {ms : List MaterialLine} {mc : ℚ}
    (h : materialsFor tname ak city = .ok (ms, mc))
    (hwf : ∀ a : ℚ, ak = some (some a) → 0 ≤ a) : 0 ≤ mc := by
  have hmb : ∀ sku, 0 ≤ materialBase sku := by
    intro sku; unfold materialBase; split_ifs <;> norm_num
  have hcm : 0 ≤ cityMult city := by
    unfold cityMult; split_ifs <;> norm_num
  unfold materialsFor at h
  split_ifs at h
  · rcases hk : ak.getD (some 4) with _ | q
    · rw [hk] at h; cases h
    · rw [hk] at h
      dsimp only at h
      split_ifs at h
      all_goals cases h
      all_goals
        (have hq : 0 ≤ q := by
          rcases hak : ak with _ | v
          · rw [hak] at hk; simp at hk; rw [← hk]; norm_num
          · rw [hak] at hk
            simp only [Option.getD_some] at hk
            rcases v with _ | a
            · cases hk
            · rw [Option.some_injective _ hk] at hak
              exact hwf _ hak
         unfold get_material_cost
         have h25 := hmb "tiles_ceramic_m2"
         exact mul_nonneg (mul_nonneg h25 hq) hcm)
  all_goals
    (cases h
     first
       | (unfold get_material_cost
          exact mul_nonneg (mul_nonneg (hmb _) (by norm_num)) hcm)
       | norm_num)

/-- Every name/area combination admits some materials outcome or a definite
error; used nowhere directly but documents totality of the dispatch. -/
theorem materialsFor_total (tname : String) (ak : Option (Option ℚ)) (city : String) :
    (∃ p, materialsFor tname ak city = .ok p) ∨
    (∃ e, materialsFor tname ak city = .error e) := by
  unfold materialsFor
  split_ifs
  · rcases ak.getD (some 4) with _ | q
    · exact Or.inr ⟨_, rfl⟩
    · dsimp only
      split_ifs
      · exact Or.inr ⟨_, rfl⟩
      · exact Or.inl ⟨_, rfl⟩
  all_goals exact Or.inl ⟨_, rfl⟩

theorem cityMult_nonneg (city : String) : 0 ≤ cityMult city := by
  unfold cityMult; split_ifs <;> norm_num

theorem hourly_rate_nonneg (city : String) : 0 ≤ hourly_rate city :=
  mul_nonneg (by norm_num) (cityMult_nonneg city)

theorem roundQuarterUp_nonneg {q : ℚ} (h : 0 ≤ q) : 0 ≤ roundQuarterUp q := by
  unfold roundQuarterUp
  have : (0 : ℤ) ≤ Int.ceil (4 * q) := Int.ceil_nonneg (by linarith)
  have : ((0 : ℤ) : ℚ) ≤ ((Int.ceil (4 * q) : ℤ) : ℚ) := Int.cast_le.2 this
  have h4 : (0 : ℚ) < 4 := by norm_num
  rw [le_div_iff₀ h4]
  simpa using this

theorem estimate_hours_nonneg (name : String) (ar : Option ℚ)
    (h : ∀ a : ℚ, ar = some a → 0 ≤ a) : 0 ≤ estimate_hours name ar := by
  unfold estimate_hours
  split_ifs
  · cases har : ar with
    | none => norm_num
    | some a =>
      dsimp only
      split_ifs
      · exact roundQuarterUp_nonneg (by have := h a har; linarith)
      · norm_num
  all_goals norm_num

theorem compute_confidence_ge {task : TaskIntent} {city : String}
    (hn : task.task_name ≠ "") (hc : city ≠ "") :
    4 / 5 ≤ compute_confidence task city := by
  unfold compute_confidence
  rw [le_min_iff]
  refine ⟨?_, by norm_num⟩
  split_ifs <;> norm_num

theorem compute_confidence_nonneg (task : TaskIntent) (city : String) :
    0 ≤ compute_confidence task city := by
  unfold compute_confidence
  rw [le_min_iff]
  refine ⟨?_, by norm_num⟩
  split_ifs <;> norm_num

/-- Destructuring a successful `priceTask`: the materials dispatch succeeded
and the result is the loop body applied to its output. -/
theorem priceTask_ok_iff {task : TaskIntent} {city : String} {hourly : ℚ}
    {c : TaskCalc} (h : priceTask task city hourly = .ok c) :
    ∃ ms mc, materialsFor task.task_name task.area_m2 city = .ok (ms, mc) ∧
      c = mkTaskCalc task city hourly ms mc := by
  unfold priceTask at h
  cases hm : materialsFor task.task_name task.area_m2 city with
  | error e => rw [hm] at h; cases h
  | ok p =>
    rw [hm] at h
    simp only [Except.map] at h
    cases h
    exact ⟨p.1, p.2, rfl, rfl⟩

/-- Every field of the loop body, written out. -/
theorem mkTaskCalc_fields (task : TaskIntent) (city : String) (hourly : ℚ)
    (ms : List MaterialLine) (mc : ℚ) :
    mkTaskCalc task city hourly ms mc =
      { record :=
          { task_name := task.task_name
            area_m2 := task.area_m2.bind id
            labor := ⟨estimate_hours task.task_name (task.area_m2.bind id), hourly,
              compute_labor_cost (estimate_hours task.task_name (task.area_m2.bind id)) city⟩
            materials := ms
            estimated_duration_hours := estimate_hours task.task_name (task.area_m2.bind id)
            vat_rate := get_vat_rate task.task_name city
            margin_pct := max (12 / 100) (5 / 100)
            price_ex_vat := round2
              ((compute_labor_cost (estimate_hours task.task_name (task.area_m2.bind id)) city + mc) +
               (compute_labor_cost (estimate_hours task.task_name (task.area_m2.bind id)) city + mc) *
                 max (12 / 100) (5 / 100))
            vat_amount := round2
              (((compute_labor_cost (estimate_hours task.task_name (task.area_m2.bind id)) city + mc) +
                (compute_labor_cost (estimate_hours task.task_name (task.area_m2.bind id)) city + mc) *
                  max (12 / 100) (5 / 100)) * get_vat_rate task.task_name city)
            total_price := round2
              (((compute_labor_cost (estimate_hours task.task_name (task.area_m2.bind id)) city + mc) +
                (compute_labor_cost (estimate_hours task.task_name (task.area_m2.bind id)) city + mc) *
                  max (12 / 100) (5 / 100)) +
               ((compute_labor_cost (estimate_hours task.task_name (task.area_m2.bind id)) city + mc) +
                (compute_labor_cost (estimate_hours task.task_name (task.area_m2.bind id)) city + mc) *
                  max (12 / 100) (5 / 100)) * get_vat_rate task.task_name city)
            confidence := round2 (compute_confidence task city) }
        labor_cost := compute_labor_cost (estimate_hours task.task_name (task.area_m2.bind id)) city
        mat_cost := mc
        vat_amount :=
          ((compute_labor_cost (estimate_hours task.task_name (task.area_m2.bind id)) city + mc) +
           (compute_labor_cost (estimate_hours task.task_name (task.area_m2.bind id)) city + mc) *
             max (12 / 100) (5 / 100)) * get_vat_rate task.task_name city
        total_price :=
          ((compute_labor_cost (estimate_hours task.task_name (task.area_m2.bind id)) city + mc) +
           (compute_labor_cost (estimate_hours task.task_name (task.area_m2.bind id)) city + mc) *
             max (12 / 100) (5 / 100)) +
          ((compute_labor_cost (estimate_hours task.task_name (task.area_m2.bind id)) city + mc) +
           (compute_labor_cost (estimate_hours task.task_name (task.area_m2.bind id)) city + mc) *
             max (12 / 100) (5 / 100)) * get_vat_rate task.task_name city
        hours := estimate_hours task.task_name (task.area_m2.bind id)
        confidence := compute_confidence task city } := rfl

/-- A successfully priced well-formed task has confidence at least 0.8 and a
nonnegative full-precision total price, and its rounded record fields are the
roundings of the full-precision values. -/
theorem taskCalc_bounds {task : TaskIntent} {city : String} {hourly : ℚ}
    {c : TaskCalc} (h : priceTask task city hourly = .ok c)
    (hn : task.task_name ≠ "")
    (hwf : ∀ a : ℚ, task.area_m2 = some (some a) → 0 ≤ a)
    (hc : city ≠ "") :
    4 / 5 ≤ c.confidence ∧ 0 ≤ c.total_price ∧
      c.record.total_price = round2 c.total_price ∧
      c.record.confidence = round2 c.confidence := by
  rcases priceTask_ok_iff h with ⟨ms, mc, hm, rfl⟩
  rw [mkTaskCalc_fields]
  have hmc : 0 ≤ mc := materialsFor_nonneg hm hwf
  have hhrs : 0 ≤ estimate_hours task.task_name (task.area_m2.bind id) := by
    refine estimate_hours_nonneg _ _ ?_
    intro a ha
    refine hwf a ?_
    rcases hb : task.area_m2 with _ | v
    · rw [hb] at ha; cases ha
    · rw [hb] at ha
      rcases v with _ | b
      · simp at ha
      · simp at ha
        rw [ha]
  have hlc : 0 ≤ compute_labor_cost (estimate_hours task.task_name (task.area_m2.bind id)) city :=
    mul_nonneg hhrs (hourly_rate_nonneg city)
  have hmax : (0 : ℚ) ≤ max (12 / 100) (5 / 100) := by norm_num
  have hvr : (0 : ℚ) ≤ get_vat_rate task.task_name city := by
    unfold get_vat_rate; norm_num
  refine ⟨compute_confidence_ge hn hc, ?_, rfl, rfl⟩
  have hbase : 0 ≤ compute_labor_cost (estimate_hours task.task_name (task.area_m2.bind id)) city + mc := by
    linarith
  have hpev : 0 ≤ (compute_labor_cost (estimate_hours task.task_name (task.area_m2.bind id)) city + mc) +
      (compute_labor_cost (estimate_hours task.task_name (task.area_m2.bind id)) city + mc) *
        max (12 / 100) (5 / 100) := by
    nlinarith
  nlinarith

theorem effectiveCity_ne (pc : Option String) : effectiveCity pc ≠ "" := by
  unfold effectiveCity
  rcases pc with _ | c
  · decide
  · dsimp only
    split_ifs with h
    · exact h
    · decide

/-- A successful `build_quote` run decomposes into a successful task loop and
the output assembly. -/
theorem buildQuote_ok_elim {u : String} {t : List Char} {q : Quote}
    (h : buildQuote u t = .ok q) :
    ∃ cs, taskCalcs t = .ok cs ∧ q = assembleQuote u t cs := by
  unfold buildQuote at h
  cases hc : taskCalcs t with
  | error e => rw [hc] at h; cases h
  | ok cs => rw [hc] at h; cases h; exact ⟨cs, rfl, rfl⟩

/-- Every task calculation of a successful loop comes from pricing some parsed
task with the defaulted city. -/
theorem taskCalcs_ok_mem {t : List Char} {cs : List TaskCalc}
    (h : taskCalcs t = .ok cs) :
    ∀ c ∈ cs, ∃ task ∈ (parseTranscript t).tasks,
      priceTask task (effectiveCity (parseTranscript t).city)
        (hourly_rate (effectiveCity (parseTranscript t).city)) = .ok c := by
  unfold taskCalcs at h
  exact fun c hc => mapE_ok_mem h c hc

/-- Every field of the assembled quote, written out. -/
theorem assembleQuote_fields (u : String) (t : List Char) (cs : List TaskCalc) :
    assembleQuote u t cs =
      { system := "T"
        quote_id := generate_quote_id u
        client := ⟨t, effectiveCity (parseTranscript t).city⟩
        currency := "EUR"
        zones := [⟨(parseTranscript t).zone, cs.map TaskCalc.record⟩]
        summary :=
          { total_labor_cost := round2 ((cs.map TaskCalc.labor_cost).sum)
            total_material_cost := round2 ((cs.map TaskCalc.mat_cost).sum)
            total_vat := round2 ((cs.map TaskCalc.vat_amount).sum)
            total_price := round2 ((cs.map TaskCalc.total_price).sum)
            estimated_duration_hours := round2 ((cs.map TaskCalc.hours).sum)
            confidence_score := round2 (if (cs.map TaskCalc.total_price).sum ≠ 0
              then (cs.map (fun c => c.confidence * c.total_price)).sum /
                (cs.map TaskCalc.total_price).sum else 0)
            suspicious_input := decide ((if (cs.map TaskCalc.total_price).sum ≠ 0
              then (cs.map (fun c => c.confidence * c.total_price)).sum /
                (cs.map TaskCalc.total_price).sum else 0) < 3 / 5) } } := rfl

theorem round2_eighty_pct : round2 (4 / 5) = 4 / 5 := by
  unfold round2
  rw [show (4 / 5 : ℚ) * 100 = 80 by norm_num, round_ofNat]
  norm_num

/-! ### Claim theorems -/

/-- C4: `parse_transcript` is embedded as a total function (it never raises;
absent signals yield `none`s and defaults), and for every input text its task
list is exactly the one described by the spec's fixed ordered trigger table:
one task per table entry whose trigger phrase occurs as a substring of the
lowercased text, in fixed table order, duplicates from independent triggers
preserved. -/
theorem C4_parse_tasks_eq_trigger_table (text : List Char) :
    (parseTranscript text).tasks = specTriggerTasks text := by
  simp only [parseTranscript, specTriggerTasks, triggerTable, List.foldr,
    List.any_cons, List.any_nil, Bool.or_false, Bool.or_eq_true,
    decide_eq_true_eq]
  split_ifs <;> simp_all

/-- If the demolition trigger did not fire, no parsed task is named
"Demolition & Disposal". -/
theorem demolition_mem_cond {text : List Char}
    (h : "Demolition & Disposal" ∈
      ((parseTranscript text).tasks.map TaskIntent.task_name)) :
    "remove old tile".toList <:+: lower text ∨
      "remove the old tiles".toList <:+: lower text := by
  by_contra hnc
  simp only [parseTranscript] at h
  rw [if_neg hnc] at h
  rcases List.mem_map.1 h with ⟨task, ht, hname⟩
  rcases mem_if_append ht with ht | rfl
  rotate_left
  · exact absurd hname (by decide)
  rcases mem_if_append ht with ht | rfl
  rotate_left
  · exact absurd hname (by decide)
  rcases mem_if_append ht with ht | rfl
  rotate_left
  · exact absurd hname (by decide)
  rcases mem_if_append ht with ht | rfl
  rotate_left
  · exact absurd hname (by decide)
  rcases mem_if_append ht with ht | rfl
  rotate_left
  · exact absurd hname
      (by change ¬"Floor Tiling (ceramic)" = "Demolition & Disposal"; decide)
  cases ht

/-- If the tiling trigger fired, the parsed task list starts with the tiling
task. -/
theorem tile_head {text : List Char} (htile : "tile".toList <:+: lower text) :
    ∃ rest, (parseTranscript text).tasks =
      ⟨"Floor Tiling (ceramic)", some (areaOf (lower text))⟩ :: rest := by
  simp only [parseTranscript]
  rw [if_pos htile]
  split_ifs <;> exact ⟨_, rfl⟩

/-- C9: in every parsed task list containing "Demolition & Disposal", the
first task is "Floor Tiling (ceramic)" and the demolition task sits strictly
later, because both demolition trigger phrases contain the substring "tile"
which also fires the (earlier) tiling trigger. -/
theorem C9_demolition_implies_tiling {text : List Char}
    (h : "Demolition & Disposal" ∈
      ((parseTranscript text).tasks.map TaskIntent.task_name)) :
    ((parseTranscript text).tasks.map TaskIntent.task_name).head? =
      some "Floor Tiling (ceramic)" ∧
    "Demolition & Disposal" ∈
      ((parseTranscript text).tasks.map TaskIntent.task_name).tail := by
  have hdemo := demolition_mem_cond h
  have htile : "tile".toList <:+: lower text := by
    rcases hdemo with h1 | h2
    · exact List.IsInfix.trans (by decide) h1
    · exact List.IsInfix.trans (by decide) h2
  obtain ⟨rest, hrest⟩ := tile_head htile
  rw [hrest] at h ⊢
  refine ⟨rfl, ?_⟩
  rcases List.mem_map.1 h with ⟨task, ht, hname⟩
  rcases List.mem_cons.1 ht with rfl | ht'
  · exact absurd hname
      (by change ¬"Floor Tiling (ceramic)" = "Demolition & Disposal"; decide)
  · exact List.mem_map.2 ⟨task, ht', hname⟩

/-- C10: when no known city name occurs in the transcript, the produced
quote's `client.location` is the string "Generic" (never null), and the whole
task loop — every labor, material and VAT lookup — runs with the city
"Generic". -/
theorem C10_generic_city (u : String) (t : List Char) (q : Quote)
    (hc : findCity (lower t) = none) (hq : buildQuote u t = .ok q) :
    q.client.location = "Generic" ∧
    taskCalcs t =
      mapE (fun task => priceTask task "Generic" (hourly_rate "Generic"))
        (parseTranscript t).tasks := by
  obtain ⟨cs, hcs, rfl⟩ := buildQuote_ok_elim hq
  have hpc : (parseTranscript t).city = none := hc
  have hcity : effectiveCity (parseTranscript t).city = "Generic" := by
    rw [hpc]; rfl
  constructor
  · show effectiveCity (parseTranscript t).city = "Generic"
    exact hcity
  · simp only [taskCalcs]
    rw [hcity]

/-- C7: the pipeline is deterministic in the transcript: two invocations on
the same text (differing only in the externally drawn uuid) produce identical
quotes in every field except `quote_id`; and the `quote_id`s of invocations
whose drawn uuid hex strings differ in their first 8 characters differ. -/
theorem C7_idempotent_mod_quote_id (u1 u2 : String) (t : List Char) :
    (buildQuote u1 t).map eraseId = (buildQuote u2 t).map eraseId ∧
    (∀ q1 q2, buildQuote u1 t = .ok q1 → buildQuote u2 t = .ok q2 →
      u1.take 8 ≠ u2.take 8 → q1.quote_id ≠ q2.quote_id) := by
  constructor
  · cases h : taskCalcs t with
    | error e =>
      unfold buildQuote
      rw [h]
    | ok cs =>
      unfold buildQuote
      rw [h]
      show Except.map eraseId (.ok (assembleQuote u1 t cs)) =
        Except.map eraseId (.ok (assembleQuote u2 t cs))
      show Except.ok (eraseId (assembleQuote u1 t cs)) =
        Except.ok (eraseId (assembleQuote u2 t cs))
      rw [assembleQuote_fields u1, assembleQuote_fields u2]
      simp [eraseId]
  · intro q1 q2 h1 h2 hne hid
    obtain ⟨cs1, hcs1, rfl⟩ := buildQuote_ok_elim h1
    obtain ⟨cs2, hcs2, rfl⟩ := buildQuote_ok_elim h2
    apply hne
    have hgen : generate_quote_id u1 = generate_quote_id u2 := hid
    unfold generate_quote_id at hgen
    have hdata := congrArg String.data hgen
    rw [String.data_append, String.data_append] at hdata
    exact String.ext (List.append_cancel_left hdata)

/-- C5: the quote's confidence score is the rounding of the spec's
total-price-weighted average of per-task confidences,
`sum(confidence_i * total_price_i) / sum(total_price_i)`, and it is 0.0
whenever the denominator is zero (no tasks, or all zero-priced tasks). -/
theorem C5_weighted_confidence (u : String) (t : List Char) (cs : List TaskCalc)
    (q : Quote) (hcs : taskCalcs t = .ok cs) (hq : buildQuote u t = .ok q) :
    q.summary.confidence_score =
      round2 (weightedAvg (cs.map (fun c => (c.confidence, c.total_price)))) ∧
    ((cs.map TaskCalc.total_price).sum = 0 → q.summary.confidence_score = 0) := by
  obtain ⟨cs2, hcs2, rfl⟩ := buildQuote_ok_elim hq
  rw [hcs] at hcs2
  injection hcs2 with hcs3
  subst hcs3
  rw [assembleQuote_fields]
  dsimp only
  have hmap2 : ((cs.map (fun c => (c.confidence, c.total_price))).map Prod.snd) =
      cs.map TaskCalc.total_price := by
    rw [List.map_map]; rfl
  have hmap1 : ((cs.map (fun c => (c.confidence, c.total_price))).map
      (fun p => p.1 * p.2)) = cs.map (fun c => c.confidence * c.total_price) := by
    rw [List.map_map]; rfl
  unfold weightedAvg
  rw [hmap1, hmap2]
  constructor
  · by_cases h0 : (cs.map TaskCalc.total_price).sum = 0
    · rw [if_neg (not_not_intro h0), if_pos h0]
    · rw [if_pos h0, if_neg h0]
  · intro h0
    rw [if_neg (not_not_intro h0)]
    exact round2_zero

/-- C6: every summary total is the single rounding of the corresponding
full-precision accumulator, and in particular the summary total price differs
from the sum of the per-task rounded `total_price` fields by at most 7/200
(one half-cent per rounding, at most six tasks plus the final rounding). -/
theorem C6_summary_totals (u : String) (t : List Char) (cs : List TaskCalc)
    (q : Quote) (hcs : taskCalcs t = .ok cs) (hq : buildQuote u t = .ok q) :
    q.summary.total_labor_cost = round2 ((cs.map TaskCalc.labor_cost).sum) ∧
    q.summary.total_material_cost = round2 ((cs.map TaskCalc.mat_cost).sum) ∧
    q.summary.total_vat = round2 ((cs.map TaskCalc.vat_amount).sum) ∧
    q.summary.total_price = round2 ((cs.map TaskCalc.total_price).sum) ∧
    q.summary.estimated_duration_hours = round2 ((cs.map TaskCalc.hours).sum) ∧
    |q.summary.total_price -
        ((q.zones.map (fun z => (z.tasks.map PricedTask.total_price).sum)).sum)| ≤
      7 / 200 := by
  obtain ⟨cs2, hcs2, rfl⟩ := buildQuote_ok_elim hq
  rw [hcs] at hcs2
  injection hcs2 with hcs3
  subst hcs3
  rw [assembleQuote_fields]
  refine ⟨rfl, rfl, rfl, rfl, rfl, ?_⟩
  dsimp only
  simp only [List.map_cons, List.map_nil, List.sum_cons, List.sum_nil, add_zero]
  have hrec : ∀ c ∈ cs, c.record.total_price = round2 c.total_price := by
    intro c hc
    obtain ⟨task, _, hpt⟩ := taskCalcs_ok_mem hcs c hc
    obtain ⟨ms, mc, _, rfl⟩ := priceTask_ok_iff hpt
    rfl
  have hmap : ((cs.map TaskCalc.record).map PricedTask.total_price) =
      (cs.map TaskCalc.total_price).map round2 := by
    rw [List.map_map, List.map_map]
    exact List.map_congr_left (fun c hc => hrec c hc)
  rw [hmap]
  have hlen : cs.length ≤ 6 := by
    have h1 : cs.length = (parseTranscript t).tasks.length := by
      unfold taskCalcs at hcs
      exact mapE_ok_length hcs
    rw [h1]
    exact parse_tasks_length t
  have h1 := abs_round2_sub ((cs.map TaskCalc.total_price).sum)
  have h2 := abs_sum_round2_sub (cs.map TaskCalc.total_price)
  have hlenq : ((cs.map TaskCalc.total_price).length : ℚ) ≤ 6 := by
    rw [List.length_map]
    exact_mod_cast hlen
  have tri : |round2 ((cs.map TaskCalc.total_price).sum) -
        (((cs.map TaskCalc.total_price).map round2).sum)| ≤
      |round2 ((cs.map TaskCalc.total_price).sum) - (cs.map TaskCalc.total_price).sum| +
      |(((cs.map TaskCalc.total_price).map round2).sum) - (cs.map TaskCalc.total_price).sum| := by
    have := abs_sub_le (round2 ((cs.map TaskCalc.total_price).sum))
      ((cs.map TaskCalc.total_price).sum)
      (((cs.map TaskCalc.total_price).map round2).sum)
    rw [abs_sub_comm ((cs.map TaskCalc.total_price).sum)] at this
    exact this
  linarith

/-- C2: for every task record of a produced quote, with
`base = labor.cost + sum(materials[].total)` (both stored at full precision in
the record), the rounded fields satisfy
`price_ex_vat = round(base * (1 + margin_pct), 2)`,
`total_price = round(base * (1 + margin_pct) * (1 + vat_rate), 2)` (the single
rounding of `price_ex_vat + vat_amount` at full precision), and `total_price`
equals `round(price_ex_vat + vat_amount, 2)` over the rounded fields within
rounding tolerance (at most 3/200). -/
theorem C2_task_price_invariants (u : String) (t : List Char) (q : Quote)
    (z : Zone) (pt : PricedTask) (hq : buildQuote u t = .ok q)
    (hz : z ∈ q.zones) (hpt : pt ∈ z.tasks) :
    pt.price_ex_vat =
      round2 ((pt.labor.cost + (pt.materials.map MaterialLine.total).sum) *
        (1 + pt.margin_pct)) ∧
    pt.total_price =
      round2 ((pt.labor.cost + (pt.materials.map MaterialLine.total).sum) *
        (1 + pt.margin_pct) * (1 + pt.vat_rate)) ∧
    |pt.total_price - (pt.price_ex_vat + pt.vat_amount)| ≤ 3 / 200 := by
  obtain ⟨cs, hcs, rfl⟩ := buildQuote_ok_elim hq
  rw [assembleQuote_fields] at hz
  have hz2 : z = ⟨(parseTranscript t).zone, cs.map TaskCalc.record⟩ := by
    simpa using hz
  subst hz2
  obtain ⟨c, hc, rfl⟩ := List.mem_map.1 hpt
  obtain ⟨task, htask, hpk⟩ := taskCalcs_ok_mem hcs c hc
  obtain ⟨ms, mc, hms, rfl⟩ := priceTask_ok_iff hpk
  have hsum := materialsFor_sum hms
  rw [mkTaskCalc_fields]
  dsimp only
  rw [hsum]
  refine ⟨?_, ?_, ?_⟩
  · congr 1
    ring
  · congr 1
    ring
  · exact abs_round2_add _ _

/-- C3: in every produced quote, `summary.suspicious_input` is true iff
`summary.confidence_score` is strictly below 0.6.  The flag is computed from
the unrounded global confidence while the score is its rounding, but every
reachable global confidence is either exactly 0 (denominator zero) or at
least 0.8 (a weighted average of per-task confidences, each at least 0.8,
with nonnegative weights), so the two comparisons agree. -/
theorem C3_suspicious_iff_low_confidence (u : String) (t : List Char)
    (q : Quote) (hq : buildQuote u t = .ok q) :
    q.summary.suspicious_input = true ↔ q.summary.confidence_score < 3 / 5 := by
  obtain ⟨cs, hcs, rfl⟩ := buildQuote_ok_elim hq
  rw [assembleQuote_fields]
  dsimp only
  have hbounds : ∀ c ∈ cs, 4 / 5 ≤ c.confidence ∧ 0 ≤ c.total_price := by
    intro c hc
    obtain ⟨task, htask, hpk⟩ := taskCalcs_ok_mem hcs c hc
    have hwf := parse_tasks_wf htask
    have hb := taskCalc_bounds hpk hwf.1 hwf.2
      (effectiveCity_ne (parseTranscript t).city)
    exact ⟨hb.1, hb.2.1⟩
  by_cases h0 : (cs.map TaskCalc.total_price).sum = 0
  · rw [if_neg (not_not_intro h0)]
    rw [round2_zero]
    constructor
    · intro _
      norm_num
    · intro _
      exact decide_eq_true (by norm_num)
  · rw [if_pos h0]
    have hws : 0 ≤ (cs.map TaskCalc.total_price).sum :=
      List.sum_nonneg (by
        intro x hx
        obtain ⟨c, hc, rfl⟩ := List.mem_map.1 hx
        exact (hbounds c hc).2)
    have hwpos : 0 < (cs.map TaskCalc.total_price).sum :=
      lt_of_le_of_ne hws (Ne.symm h0)
    have hle : (cs.map (fun c => 4 / 5 * c.total_price)).sum ≤
        (cs.map (fun c => c.confidence * c.total_price)).sum := by
      refine List.sum_le_sum ?_
      intro c hc
      exact mul_le_mul_of_nonneg_right (hbounds c hc).1 (hbounds c hc).2
    have hfac : (cs.map (fun c => 4 / 5 * c.total_price)).sum =
        4 / 5 * (cs.map TaskCalc.total_price).sum := by
      rw [← List.sum_map_mul_left]
    have hgc : 4 / 5 ≤ (cs.map (fun c => c.confidence * c.total_price)).sum /
        (cs.map TaskCalc.total_price).sum := by
      rw [le_div_iff₀ hwpos]
      rw [hfac] at hle
      linarith
    have hscore : 4 / 5 ≤ round2 ((cs.map (fun c => c.confidence * c.total_price)).sum /
        (cs.map TaskCalc.total_price).sum) := by
      have := round2_mono hgc
      rwa [round2_eighty_pct] at this
    constructor
    · intro hd
      have := of_decide_eq_true hd
      linarith
    · intro hscore2
      exfalso
      linarith

/-- C8: a transcript containing none of the trigger phrases yields a quote
with an empty task list, zero total price, zero confidence score, and the
suspicious-input flag set. -/
theorem C8_no_trigger_keywords (u : String) (t : List Char) (q : Quote)
    (hno : ∀ p ∈ triggerPhrases, ¬ (p.toList <:+: lower t))
    (hq : buildQuote u t = .ok q) :
    (q.zones.map Zone.tasks) = [[]] ∧
    q.summary.total_price = 0 ∧
    q.summary.confidence_score = 0 ∧
    q.summary.suspicious_input = true := by
  have c1 : ¬("tile".toList <:+: lower t) := hno "tile" (by decide)
  have c2 : ¬("paint".toList <:+: lower t) := hno "paint" (by decide)
  have c3 : ¬("repaint".toList <:+: lower t) := hno "repaint" (by decide)
  have c4 : ¬("plumb".toList <:+: lower t) := hno "plumb" (by decide)
  have c5 : ¬("toilet".toList <:+: lower t) := hno "toilet" (by decide)
  have c6 : ¬("vanity".toList <:+: lower t) := hno "vanity" (by decide)
  have c7 : ¬("remove old tile".toList <:+: lower t) :=
    hno "remove old tile" (by decide)
  have c8 : ¬("remove the old tiles".toList <:+: lower t) :=
    hno "remove the old tiles" (by decide)
  have htasks : (parseTranscript t).tasks = [] := by
    simp only [parseTranscript]
    simp_all
  obtain ⟨cs, hcs, rfl⟩ := buildQuote_ok_elim hq
  have hcs0 : cs = [] := by
    simp only [taskCalcs] at hcs
    rw [htasks] at hcs
    simp only [mapE] at hcs
    injection hcs with h
    exact h.symm
  subst hcs0
  rw [assembleQuote_fields]
  refine ⟨rfl, ?_, ?_, ?_⟩
  · exact round2_zero
  · show round2 (if (0 : ℚ) ≠ 0 then _ / _ else 0) = 0
    rw [if_neg (by norm_num)]
    exact round2_zero
  · show decide ((if (0 : ℚ) ≠ 0 then _ / _ else 0) < 3 / 5) = true
    norm_num

/-- The materials dispatch never fires for a task named
"Floor Tiling (ceramic)": the Python test is the case-sensitive substring
check `"Tile" in tname`, and "Tile" is not a substring of
"Floor Tiling (ceramic)" (nor is any other dispatch key), so the final
empty-materials branch is taken. -/
theorem materialsFor_tiling (ak : Option (Option ℚ)) (city : String) :
    materialsFor "Floor Tiling (ceramic)" ak city = .ok ([], 0) := rfl

/-- C1: contrary to the spec, a tiling task never gets a ceramic-tile
material line item — with or without an area signal, its materials list is
empty (the `"Tile" in tname` dispatch never matches the task name
"Floor Tiling (ceramic)", so the `task.get("area_m2", 4)` fallback is dead
code; had the branch fired, the quantity would have been the stored `None`,
not 4, because the parser always stores the `area_m2` key). -/
theorem C1_tiling_has_no_material_line (u : String) (t : List Char) (q : Quote)
    (hq : buildQuote u t = .ok q) :
    ∀ z ∈ q.zones, ∀ pt ∈ z.tasks,
      pt.task_name = "Floor Tiling (ceramic)" → pt.materials = [] := by
  obtain ⟨cs, hcs, rfl⟩ := buildQuote_ok_elim hq
  rw [assembleQuote_fields]
  intro z hz
  have hz2 : z = ⟨(parseTranscript t).zone, cs.map TaskCalc.record⟩ := by
    simpa using hz
  subst hz2
  intro pt hpt hname
  obtain ⟨c, hc, rfl⟩ := List.mem_map.1 hpt
  obtain ⟨task, htask, hpk⟩ := taskCalcs_ok_mem hcs c hc
  obtain ⟨ms, mc, hms, rfl⟩ := priceTask_ok_iff hpk
  have hn : task.task_name = "Floor Tiling (ceramic)" := hname
  rw [hn, materialsFor_tiling] at hms
  injection hms with h2
  injection h2 with ha hb
  show ms = []
  exact ha.symm

/-! ### Witnesses -/

/-- Witness for C1 at the transcript "lay tile today" (tiling task, no area
signal): the pipeline completes and the tiling task's materials list is
empty. -/
theorem C1_witness : samplePT1.materials = [] :=
  C1_tiling_has_no_material_line "abab7777" "lay tile today".toList sampleQ1 rfl
    sampleZ1 (List.Mem.head _) samplePT1 (List.Mem.head _) rfl

/-- Witness for C2 at the transcript "toilet". -/
theorem C2_witness :
    samplePT2.price_ex_vat =
      round2 ((samplePT2.labor.cost +
        (samplePT2.materials.map MaterialLine.total).sum) *
        (1 + samplePT2.margin_pct)) ∧
    samplePT2.total_price =
      round2 ((samplePT2.labor.cost +
        (samplePT2.materials.map MaterialLine.total).sum) *
        (1 + samplePT2.margin_pct) * (1 + samplePT2.vat_rate)) ∧
    |samplePT2.total_price - (samplePT2.price_ex_vat + samplePT2.vat_amount)| ≤
      3 / 200 :=
  C2_task_price_invariants "aaaa1111" "toilet".toList sampleQ2 sampleZ2 samplePT2
    rfl (List.Mem.head _) (List.Mem.head _)

/-- Witness for C3 at the transcript "vanity". -/
theorem C3_witness :
    sampleQ3.summary.suspicious_input = true ↔
      sampleQ3.summary.confidence_score < 3 / 5 :=
  C3_suspicious_iff_low_confidence "bbbb2222" "vanity".toList sampleQ3 rfl

/-- Witness for C5 at the transcript "plumb". -/
theorem C5_witness :
    sampleQ5.summary.confidence_score =
      round2 (weightedAvg (sampleCS5.map (fun c => (c.confidence, c.total_price)))) ∧
    ((sampleCS5.map TaskCalc.total_price).sum = 0 →
      sampleQ5.summary.confidence_score = 0) :=
  C5_weighted_confidence "cccc3333" "plumb".toList sampleCS5 sampleQ5 rfl rfl

/-- Witness for C6 at the transcript "toilet and vanity". -/
theorem C6_witness :
    sampleQ6.summary.total_labor_cost =
      round2 ((sampleCS6.map TaskCalc.labor_cost).sum) ∧
    sampleQ6.summary.total_material_cost =
      round2 ((sampleCS6.map TaskCalc.mat_cost).sum) ∧
    sampleQ6.summary.total_vat = round2 ((sampleCS6.map TaskCalc.vat_amount).sum) ∧
    sampleQ6.summary.total_price = round2 ((sampleCS6.map TaskCalc.total_price).sum) ∧
    sampleQ6.summary.estimated_duration_hours =
      round2 ((sampleCS6.map TaskCalc.hours).sum) ∧
    |sampleQ6.summary.total_price -
        ((sampleQ6.zones.map (fun z => (z.tasks.map PricedTask.total_price).sum)).sum)| ≤
      7 / 200 :=
  C6_summary_totals "dddd4444" "toilet and vanity".toList sampleCS6 sampleQ6 rfl rfl

/-- Witness for C7 with two distinct uuid draws on the transcript "toilet". -/
theorem C7_witness :
    (buildQuote "aaaaaaaa" "toilet".toList).map eraseId =
      (buildQuote "bbbbbbbb" "toilet".toList).map eraseId ∧
    sampleQ7a.quote_id ≠ sampleQ7b.quote_id :=
  ⟨(C7_idempotent_mod_quote_id "aaaaaaaa" "bbbbbbbb" "toilet".toList).1,
   (C7_idempotent_mod_quote_id "aaaaaaaa" "bbbbbbbb" "toilet".toList).2
     sampleQ7a sampleQ7b rfl rfl (by decide)⟩

/-- Witness for C8 at the keyword-free transcript "hello there". -/
theorem C8_witness :
    (sampleQ8.zones.map Zone.tasks) = [[]] ∧
    sampleQ8.summary.total_price = 0 ∧
    sampleQ8.summary.confidence_score = 0 ∧
    sampleQ8.summary.suspicious_input = true :=
  C8_no_trigger_keywords "eeee5555" "hello there".toList sampleQ8 (by decide) rfl

/-- Witness for C9 at the transcript "remove the old tiles". -/
theorem C9_witness :
    ((parseTranscript "remove the old tiles".toList).tasks.map
      TaskIntent.task_name).head? = some "Floor Tiling (ceramic)" ∧
    "Demolition & Disposal" ∈
      ((parseTranscript "remove the old tiles".toList).tasks.map
        TaskIntent.task_name).tail :=
  C9_demolition_implies_tiling (by decide)

/-- Witness for C10 at the city-free transcript "redo the plumbing". -/
theorem C10_witness :
    sampleQ10.client.location = "Generic" ∧
    taskCalcs "redo the plumbing".toList =
      mapE (fun task => priceTask task "Generic" (hourly_rate "Generic"))
        (parseTranscript "redo the plumbing".toList).tasks :=
  C10_generic_city "ffff6666" "redo the plumbing".toList sampleQ10 (by decide) rfl

end Donizo
